import Mathlib

/-!
# Verification of the attendance scraper core (polarhive/attend)

Shallow embedding of the Python sources into Lean 4:

* `backend/engine/attendance.py` — `AttendanceCalculator.calculate_bunkable`;
  the unbounded Python `while` loop is modelled with explicit fuel
  (`none` = the loop has not terminated within `fuel` iterations), and
  Python real division is modelled exactly by `ℚ`.
* `main.py` — CSRF token extraction (four-tier fallback), attendance table
  parsing, and batch-id resolution.  BeautifulSoup/regex library calls are
  modelled as abstract query results carried by the document structures.
* `backend/engine/fetch.py` — the per-candidate scrape loop.
* `backend/api/main.py` / `backend/api/api.py` — attendance formatting and
  the request-store expiry sweep.
* `backend/engine/stream.py` — request-scoped log filtering.
-/

namespace Attend

/-! ## `AttendanceCalculator.calculate_bunkable` (backend/engine/attendance.py)

```python
if total_classes == 0:
    return 0
max_bunkable = 0
while (attended_classes / (total_classes + max_bunkable)) * 100 >= threshold:
    max_bunkable += 1
return max_bunkable - 1 if max_bunkable > 0 else 0
```
-/

/-- The `while` condition `(attended / (total + k)) * 100 >= threshold`. -/

def bunkGuard (attended total : ℕ) (threshold : ℚ) (k : ℕ) : Bool :=
  decide (threshold ≤ (attended : ℚ) / ((total : ℚ) + (k : ℚ)) * 100)

/-- The `while` loop of `calculate_bunkable`, with fuel.  Returns the first
counter value `k` (starting from the given `k`) at which the guard fails,
i.e. the value of `max_bunkable` after the loop exits. -/

def bunkableGo (attended total : ℕ) (threshold : ℚ) : ℕ → ℕ → Option ℕ
  | 0, _ => none
  | fuel + 1, k =>
      if bunkGuard attended total threshold k then
        bunkableGo attended total threshold fuel (k + 1)
      else
        some k

/-- `AttendanceCalculator.calculate_bunkable(total_classes, attended_classes,
threshold)`.  `none` means the Python loop diverges (does not stop within
`fuel` iterations). -/

def calculate_bunkable (total_classes attended_classes : ℕ) (threshold : ℚ)
    (fuel : ℕ) : Option ℕ :=
  if total_classes = 0 then some 0
  else
    match bunkableGo attended_classes total_classes threshold fuel 0 with
    | none => none
    | some k => some (if 0 < k then k - 1 else 0)

/-- The Python call diverges: no amount of fuel makes the loop stop. -/

def bunkable_diverges (total_classes attended_classes : ℕ) (threshold : ℚ) : Prop :=
  ∀ fuel, calculate_bunkable total_classes attended_classes threshold fuel = none

namespace Web

/-! ## CSRF token extraction (`main.py`, `PESUAttendanceScraper._extract_csrf_token`)

The monolithic `main.py` variant uses a four-tier ordered fallback:
hidden `<input name="_csrf">`, then meta tags `_csrf`/`csrf-token`/`csrf`,
then an inline-script regex, then a page-wide UUID regex, and finally
raises `AuthenticationError`.  BeautifulSoup tag queries and the two regex
searches are library calls; they are modelled as the query results carried
by the abstract `HtmlPage` structure. -/

/-- Abstract view of an HTML body as seen through the queries the code
performs: `inputs`/`metas` are the `(name, value-or-content)` attribute
pairs of the corresponding tags in document order; `jsCsrfMatch` is the
result of the tier-3 inline-script regex search on the raw text and
`uuidMatch` the result of the tier-4 UUID regex search. -/

structure HtmlPage where
  inputs : List (String × Option String)
  metas : List (String × Option String)
  jsCsrfMatch : Option String
  uuidMatch : Option String

/-- Python truthiness of an optional tag attribute: usable only when
present and non-empty (`m and m.get(attr)`). -/

def truthyAttr : Option String → Option String
  | none => none
  | some s => if s = "" then none else some s

/-- `soup.find(tag, attrs)`: first tag with the given name attribute. -/

def findTag (tags : List (String × Option String)) (nm : String) :
    Option (String × Option String) :=
  tags.find? (fun p => p.1 == nm)

/-- Tier 1: `soup.find("input", name="_csrf")` with a truthy `value`. -/

def hiddenInputToken (page : HtmlPage) : Option String :=
  (findTag page.inputs "_csrf").bind (fun p => truthyAttr p.2)

/-- Tier 2: the `for meta_name in ("_csrf", "csrf-token", "csrf")` loop,
returning the first meta tag with a truthy `content`. -/

def metaToken (page : HtmlPage) : Option String :=
  ["_csrf", "csrf-token", "csrf"].findSome?
    (fun nm => (findTag page.metas nm).bind (fun p => truthyAttr p.2))

/-- `PESUAttendanceScraper._extract_csrf_token` (main.py): ordered
four-tier fallback, raising `AuthenticationError` when nothing matches. -/

def extract_csrf_token (page : HtmlPage) : Except String String :=
  match hiddenInputToken page with
  | some v => .ok v
  | none =>
    match metaToken page with
    | some v => .ok v
    | none =>
      match page.jsCsrfMatch with
      | some v => .ok v
      | none =>
        match page.uuidMatch with
        | some v => .ok v
        | none => .error "CSRF token not found in response"

end Web

/-- A body carrying both a tier-1 hidden-input token `"A"` and a tier-3
inline-script token `"B"`. -/

def csrfBodyAB : Web.HtmlPage :=
  { inputs := [("_csrf", some "A")]
    metas := []
    jsCsrfMatch := some "B"
    uuidMatch := none }

/-! ## Attendance report parsing and the candidate loop

`ReportHtml` is the abstract view of a report response body as seen through
the queries the parsers perform: `table` is `soup.find("table", class_="table")`
(`none` when absent); inside it the `<tbody>` (`none` when absent); inside
that the `<tr>` rows, each a list of raw `<td>` cell texts. -/


structure ReportHtml where
  table : Option (Option (List (List String)))

/-- Python `str.strip()`: drop leading and trailing whitespace. -/

def pyStrip (s : String) : String :=
  String.mk (((s.toList.dropWhile Char.isWhitespace).reverse.dropWhile
    Char.isWhitespace).reverse)

namespace Web

/-- `_extract_row_data` (main.py): `cell.get_text(strip=True)` for each
`<td>`; the stripping is modelled by `pyStrip`. -/

def extract_row_data (table_row : List String) : List String :=
  table_row.map (fun cell => pyStrip cell)

/-- `_is_valid_attendance_record` (main.py): at least 2 cells, non-empty
first cell; a third cell equal to `"NA"` is only logged, the row is kept. -/

def is_valid_attendance_record (row_data : List String) : Bool :=
  if row_data.length < 2 then false
  else if (row_data.headD "" == "") || (pyStrip (row_data.headD "") == "") then false
  else true

/-- `_parse_attendance_table` (main.py). -/

def parse_attendance_table (page : ReportHtml) : Option (List (List String)) :=
  match page.table with
  | none => none
  | some none => none
  | some (some trs) =>
      let attendance_records := (trs.map extract_row_data).filter
        (fun rd => !rd.isEmpty && is_valid_attendance_record rd)
      if attendance_records.isEmpty then none else some attendance_records

/-- The validity filter in the claim's words: at least 2 cells and a first
cell that is non-empty after trimming (the ratio cell, `"NA"` included,
plays no role). -/

def spec_row_valid (rd : List String) : Bool :=
  decide (2 ≤ rd.length) && !(pyStrip (rd.headD "") == "")

end Web

namespace Engine

/-- `_extract_row_data` (backend/engine/fetch.py). -/

def extract_row_data (table_row : List String) : List String :=
  table_row.map (fun cell => pyStrip cell)

/-- `_is_valid_attendance_record` (backend/engine/fetch.py): at least 3
cells, and rows whose third cell is exactly `"NA"` are dropped. -/

def is_valid_attendance_record (row_data : List String) : Bool :=
  if row_data.length < 3 then false
  else if decide (2 < row_data.length) && (row_data.getD 2 "" == "NA") then false
  else true

/-- `_parse_attendance_table` (backend/engine/fetch.py). -/

def parse_attendance_table (page : ReportHtml) : Option (List (List String)) :=
  match page.table with
  | none => none
  | some none => none
  | some (some trs) =>
      let attendance_records := (trs.map extract_row_data).filter
        (fun rd => !rd.isEmpty && is_valid_attendance_record rd)
      if attendance_records.isEmpty then none else some attendance_records

/-- Outcome of one attendance report POST for a candidate batch id:
either a `requests.RequestException` or a status code with the parsed
response body. -/

inductive FetchResp where
  | netError : FetchResp
  | success (status : ℕ) (page : ReportHtml) : FetchResp

/-- `_fetch_attendance_for_batch` (backend/engine/fetch.py): a network
error or a non-200 status is logged and yields `None`; a 200 response is
handed to the parser. -/

def fetch_attendance_for_batch (responses : String → FetchResp)
    (batch_id : String) : Option (List (List String)) :=
  match responses batch_id with
  | .netError => none
  | .success status page =>
      if status ≠ 200 then none else parse_attendance_table page

/-- Python truthiness of `Optional[List[...]]`: `None` and `[]` are falsy. -/

def pyTruthyList : Option (List (List String)) → Bool
  | none => false
  | some l => !l.isEmpty

/-- The candidate loop of `scrape_attendance_data`
(backend/engine/fetch.py): try each batch id in order, return the first
truthy fetch result, `None` when all candidates are exhausted. -/

def scrape_attendance_data (responses : String → FetchResp) :
    List String → Option (List (List String))
  | [] => none
  | batch_id :: rest =>
      let attendance_data := fetch_attendance_for_batch responses batch_id
      if pyTruthyList attendance_data then attendance_data
      else scrape_attendance_data responses rest

/-- Instrumentation of the same loop: the candidate ids for which a report
request is actually issued, in order. -/

def requests_issued (responses : String → FetchResp) :
    List String → List String
  | [] => []
  | batch_id :: rest =>
      batch_id ::
        (if pyTruthyList (fetch_attendance_for_batch responses batch_id) then []
         else requests_issued responses rest)

end Engine

/-- A report page whose table holds three rows. -/

def samplePage102 : ReportHtml :=
  ⟨some (some [["CS101", "Data Structures", "18/20"],
               ["CS102", "Networks", "15/20"],
               ["CS103", "Operating Systems", "20/20"]])⟩

/-- A portal where candidate `"101"` answers 200 with no table and
candidate `"102"` answers 200 with three rows. -/

def sampleResponses : String → Engine.FetchResp := fun b =>
  if b == "101" then .success 200 ⟨none⟩
  else if b == "102" then .success 200 samplePage102
  else .netError

/-! ## Batch-id resolution (`main.py`, `scrape_attendance_data` +
`_fetch_semester_batch_ids`)

If `self.batch_class_ids` is truthy (a non-empty configured list) it is
used directly; otherwise the semesters discovery endpoint is queried and
the numeric ids parsed out of the `<option>` values are used, recorded on
the session as auto-discovered together with their label texts. -/

/-- `int("".join(filter(str.isdigit, val)))` applied to a non-empty digit
list. -/

def int_of_digits (cl : List Char) : ℕ :=
  cl.foldl (fun n c => n * 10 + (c.toNat - 48)) 0

namespace Web

/-- One selectable `<option>` (or JSON item): its `value` attribute and its
label text. -/

structure SemOption where
  value : Option String
  text : String
deriving DecidableEq

/-- The numeric id parsed from one option: skipped when the value is
missing/empty (`if val:`) or when stripping non-digits leaves nothing
(`int('')` raises `ValueError`, caught and skipped). -/

def optionBatchId (opt : SemOption) : Option ℕ :=
  match opt.value with
  | none => none
  | some v =>
      if v = "" then none
      else
        let cl := v.toList.filter Char.isDigit
        if cl.isEmpty then none else some (int_of_digits cl)

/-- Python `dict` insertion: overwrite in place when the key exists,
append otherwise. -/

def dictInsert (d : List (ℕ × String)) (k : ℕ) (v : String) :
    List (ℕ × String) :=
  if d.any (fun p => p.1 == k) then
    d.map (fun p => if p.1 == k then (p.1, v) else p)
  else d ++ [(k, v)]

/-- The option-iteration loop of `_fetch_semester_batch_ids`: collect
`values` in option order and the `texts` dict keyed by id. -/

def parse_options (opts : List SemOption) : List ℕ × List (ℕ × String) :=
  opts.foldl
    (fun acc opt =>
      match optionBatchId opt with
      | none => acc
      | some id_int => (acc.1 ++ [id_int], dictInsert acc.2 id_int opt.text))
    ([], [])

/-- A discovery response: the `<option>` tags BeautifulSoup finds and,
when there are none, the JSON-parse fallback (`none` = not parseable as a
list). -/

structure SemResponse where
  options : List SemOption
  json : Option (List SemOption)
deriving DecidableEq

/-- The `(values, texts)` accumulated by `_fetch_semester_batch_ids`:
from the option tags when any exist, else from the JSON fallback. -/

def semParsed (resp : SemResponse) : List ℕ × List (ℕ × String) :=
  if !resp.options.isEmpty then parse_options resp.options
  else
    match resp.json with
    | some items => parse_options items
    | none => ([], [])

/-- `_fetch_semester_batch_ids` (main.py): parse options (or the JSON
fallback when no option tags exist) and return
`(values if values else None, texts if texts else None)`. -/

def fetch_semester_batch_ids (resp : SemResponse) :
    Option (List ℕ) × Option (List (ℕ × String)) :=
  (if (semParsed resp).1.isEmpty then none else some (semParsed resp).1,
   if (semParsed resp).2.isEmpty then none else some (semParsed resp).2)

/-- `Union[int, List[int]]`: `self.batch_class_ids` holds either a scalar
or a list (`ids if len(ids) > 1 else ids[0]`). -/

inductive BatchIds where
  | one : ℕ → BatchIds
  | many : List ℕ → BatchIds
deriving DecidableEq

/-- `_normalize_batch_ids` (main.py): stringify, wrapping a scalar. -/

def normalize_batch_ids : BatchIds → List String
  | .many l => l.map (fun bid => toString bid)
  | .one bid => [toString bid]

/-- The observable outcome of the batch-id resolution step at the top of
`scrape_attendance_data` (main.py): which normalized candidate ids the
subsequent loop will try, whether the discovery endpoint was consulted,
and what was recorded on the session. -/

structure ResolveOutcome where
  tried : List String
  consulted_discovery : Bool
  auto_discovered : Option (List ℕ)
  sem_texts : Option (List (ℕ × String))
deriving DecidableEq

/-- Batch-id resolution (main.py, `scrape_attendance_data` lines 683-717):
configured candidates win; otherwise discovery runs, and failure to
discover anything aborts with `None`. -/

def resolve_batch_ids (batch_class_ids : List ℕ) (resp : SemResponse) :
    Option ResolveOutcome :=
  if !batch_class_ids.isEmpty then
    some { tried := normalize_batch_ids (.many batch_class_ids)
           consulted_discovery := false
           auto_discovered := none
           sem_texts := none }
  else
    match fetch_semester_batch_ids resp with
    | (some ids, texts) =>
        let bci : BatchIds := if 1 < ids.length then .many ids else .one (ids.headD 0)
        some { tried := normalize_batch_ids bci
               consulted_discovery := true
               auto_discovered := some ids
               sem_texts := texts }
    | (none, _) => none

end Web

namespace Api

/-! ## API formatting and request-store expiry (`backend/api/main.py`,
`backend/api/api.py`) -/

/-- Python `int(s)`: strip surrounding whitespace, take an optional sign,
then require a non-empty run of digits; otherwise `ValueError`
(modelled as `none`).  (Underscore digit-group separators are not
modelled; no scraped cell uses them.) -/

def pyInt (s : String) : Option ℤ :=
  match (pyStrip s).toList with
  | '-' :: rest =>
      if rest.isEmpty then none
      else if rest.all Char.isDigit then some (-(int_of_digits rest : ℤ)) else none
  | '+' :: rest =>
      if rest.isEmpty then none
      else if rest.all Char.isDigit then some (int_of_digits rest : ℤ) else none
  | t =>
      if t.isEmpty then none
      else if t.all Char.isDigit then some (int_of_digits t : ℤ) else none

/-- Python `s.split(sep)` for a one-character separator. -/

def pySplit (sep : Char) (s : String) : List String :=
  (s.toList.foldr
    (fun c acc =>
      match acc with
      | cur :: done => if c = sep then [] :: cur :: done else (c :: cur) :: done
      | [] => [[c]])
    [[]]).map String.mk

/-- Python `round(x)`: round half to even (on the exact rational model of
the float value). -/

def pyRoundHalfEven (x : ℚ) : ℤ :=
  if x - (⌊x⌋ : ℚ) < 1 / 2 then ⌊x⌋
  else if 1 / 2 < x - (⌊x⌋ : ℚ) then ⌊x⌋ + 1
  else if ⌊x⌋ % 2 = 0 then ⌊x⌋ else ⌊x⌋ + 1

/-- Python `round(x, 2)`. -/

def pyRound2 (x : ℚ) : ℚ := (pyRoundHalfEven (x * 100) : ℚ) / 100

/-- One formatted attendance entry as built by `_format_attendance_data`
(backend/api/main.py): every field is always present; in particular
`percentage` is `0`, not null, for `total = 0`.  The `bunkable` field
carries the fueled calculator result (the fuel `attended*100 + 2` covers
every terminating run at the deployed threshold `75`). -/

structure ApiAttendanceRecord where
  subject : String
  attended : ℤ
  total : ℤ
  percentage : ℚ
  bunkable : Option ℕ
deriving DecidableEq

/-- The body of the per-item loop of `_format_attendance_data`
(backend/api/main.py): `none` = the row is skipped (`continue`), which
happens for fewer than 3 cells, a ratio that does not split into exactly
two parts on `/`, or parts `int()` rejects (`ValueError` caught). -/

def format_one (subject_mapping : List (String × String)) (threshold : ℚ)
    (item : List String) : Option ApiAttendanceRecord :=
  if item.length < 3 then none
  else
    if (pySplit '/' (item.getD 2 "")).length ≠ 2 then none
    else
      match pyInt ((pySplit '/' (item.getD 2 "")).getD 0 ""),
            pyInt ((pySplit '/' (item.getD 2 "")).getD 1 "") with
      | some attended, some total =>
          some { subject :=
                   ((subject_mapping.find? (fun p => p.1 == item.getD 0 "")).map
                     (fun p => p.2)).getD (item.getD 0 "")
                 attended := attended
                 total := total
                 percentage :=
                   if 0 < total then
                     pyRound2 ((attended : ℚ) / (total : ℚ) * 100)
                   else 0
                 bunkable :=
                   calculate_bunkable total.toNat attended.toNat threshold
                     (attended.toNat * 100 + 2) }
      | _, _ => none

/-- `_format_attendance_data` (backend/api/main.py). -/

def format_attendance_data (attendance_data : List (List String))
    (subject_mapping : List (String × String)) (threshold : ℚ) :
    List ApiAttendanceRecord :=
  attendance_data.filterMap (format_one subject_mapping threshold)

/-- An entry of the in-memory `request_store` dict, restricted to the
fields the expiry sweep reads: the optional `"timestamp"` and the
`status`. -/

structure StoredRequest where
  timestamp : Option ℚ
  status : String
deriving DecidableEq

/-- `_cleanup_old_requests` (backend/api/main.py and backend/api/api.py,
identical logic): collect the ids whose age `current_time - ts` strictly
exceeds the timeout (a missing timestamp counts as `0`), then delete
every collected id. -/

def cleanup_old_requests (current_time request_timeout_seconds : ℚ)
    (request_store : List (String × StoredRequest)) :
    List (String × StoredRequest) :=
  let expired_requests :=
    (request_store.filter
      (fun p =>
        decide (request_timeout_seconds <
          current_time - (p.2.timestamp.getD 0)))).map (fun p => p.1)
  request_store.filter (fun p => !(expired_requests.contains p.1))

end Api

namespace Stream

/-! ## Request-scoped log relay (`backend/engine/stream.py`)

`RequestContextFilter.filter` stamps every record with the ambient
context-variable request id (`record.request_id = req_id or "-"`);
`RequestIDFilter.filter` admits a record into a `RequestLogHandler` iff the
stamped id equals the handler's own request id; `RequestLogHandler.emit`
appends the formatted line to `self.logs` and schedules a WebSocket
broadcast when the id is registered. -/

/-- `RequestContextFilter.filter`: the stamped `record.request_id`,
`req_id or "-"` (Python `or` treats `None` and `""` as falsy). -/

def contextFilterTag : Option String → String
  | none => "-"
  | some s => if s = "" then "-" else s

/-- `RequestIDFilter.filter`: admit only records whose stamped id equals
the filter's request id; a `None` filter id admits nothing. -/

def requestIDFilter (filter_request_id : Option String)
    (record_request_id : String) : Bool :=
  match filter_request_id with
  | none => false
  | some h => record_request_id == h

/-- The mutable state of a `RequestLogHandler` relevant to the claim. -/

structure RequestLogHandler where
  request_id : Option String
  logs : List String

/-- One record passing through the handler: the attached `RequestIDFilter`
runs first; on admission `emit` appends the formatted line to `logs` and,
when the id is truthy, present in the request store and has a live
connection, schedules a broadcast of the line (returned as the second
component; `none` = nothing scheduled). -/

def handle (h : RequestLogHandler) (stored connected : Bool)
    (ambient : Option String) (message : String) :
    RequestLogHandler × Option String :=
  if requestIDFilter h.request_id (contextFilterTag ambient) then
    ({ h with logs := h.logs ++ [message] },
      if (match h.request_id with | some r => !(r == "") | none => false)
          && stored && connected then some message else none)
  else (h, none)

end Stream

/-! Basic facts about the loop. -/


lemma bunkGuard_true_iff (a t : ℕ) (T : ℚ) (k : ℕ) :
    bunkGuard a t T k = true ↔ T ≤ (a : ℚ) / ((t : ℚ) + (k : ℚ)) * 100 := by
  simp [bunkGuard]

lemma bunkGuard_false_iff (a t : ℕ) (T : ℚ) (k : ℕ) :
    bunkGuard a t T k = false ↔ (a : ℚ) / ((t : ℚ) + (k : ℚ)) * 100 < T := by
  simp [bunkGuard, not_le]

/-- If every guard check succeeds, the loop never stops. -/

lemma bunkableGo_eq_none (a t : ℕ) (T : ℚ)
    (h : ∀ k, bunkGuard a t T k = true) :
    ∀ fuel k, bunkableGo a t T fuel k = none := by
  intro fuel
  induction fuel with
  | zero => intro k; rfl
  | succ n ih =>
      intro k
      simp only [bunkableGo, h k, if_true]
      exact ih (k + 1)

/-- Any value returned by the loop is a first failing guard index at or
after the starting counter. -/

lemma bunkableGo_eq_some (a t : ℕ) (T : ℚ) :
    ∀ fuel k N, bunkableGo a t T fuel k = some N →
      bunkGuard a t T N = false ∧ k ≤ N ∧
        ∀ j, k ≤ j → j < N → bunkGuard a t T j = true := by
  intro fuel
  induction fuel with
  | zero => intro k N h; simp [bunkableGo] at h
  | succ n ih =>
      intro k N h
      cases hg : bunkGuard a t T k with
      | true =>
          simp only [bunkableGo, hg, if_true] at h
          obtain ⟨h1, h2, h3⟩ := ih (k + 1) N h
          refine ⟨h1, le_trans (Nat.le_succ k) h2, ?_⟩
          intro j hkj hjN
          rcases Nat.eq_or_lt_of_le hkj with rfl | hlt
          · exact hg
          · exact h3 j hlt hjN
      | false =>
          simp only [bunkableGo, hg] at h
          simp only [Bool.false_eq_true, if_false, Option.some.injEq] at h
          subst h
          exact ⟨hg, le_refl k, fun j hkj hjN =>
            absurd (lt_of_le_of_lt hkj hjN) (lt_irrefl k)⟩

/-- If some guard check fails, enough fuel makes the loop stop at the least
failing index. -/

lemma bunkableGo_eq_some_of_fail (a t : ℕ) (T : ℚ)
    (h : ∃ n, bunkGuard a t T n = false) :
    ∀ fuel k, k ≤ Nat.find h → Nat.find h < k + fuel →
      bunkableGo a t T fuel k = some (Nat.find h) := by
  intro fuel
  induction fuel with
  | zero =>
      intro k hk hlt
      exact absurd (lt_of_le_of_lt hk hlt) (by simp)
  | succ n ih =>
      intro k hk hlt
      by_cases hke : k = Nat.find h
      · subst hke
        have hg : bunkGuard a t T (Nat.find h) = false := Nat.find_spec h
        simp [bunkableGo, hg]
      · have hklt : k < Nat.find h := lt_of_le_of_ne hk hke
        have hg : bunkGuard a t T k = true := by
          have := Nat.find_min h hklt
          exact Bool.of_not_eq_false this
        simp only [bunkableGo, hg, if_true]
        exact ih (k + 1) hklt (by omega)

/-- A loop result is stable under extra fuel. -/

lemma bunkableGo_fuel_mono (a t : ℕ) (T : ℚ) :
    ∀ fuel fuel' k N, fuel ≤ fuel' → bunkableGo a t T fuel k = some N →
      bunkableGo a t T fuel' k = some N := by
  intro fuel
  induction fuel with
  | zero => intro fuel' k N _ h; simp [bunkableGo] at h
  | succ n ih =>
      intro fuel' k N hle h
      obtain ⟨m, rfl⟩ : ∃ m, fuel' = m + 1 :=
        ⟨fuel' - 1, by omega⟩
      cases hg : bunkGuard a t T k with
      | true =>
          simp only [bunkableGo, hg, if_true] at h ⊢
          exact ih m (k + 1) N (by omega) h
      | false =>
          simp only [bunkableGo, hg, Bool.false_eq_true, if_false] at h ⊢
          exact h

/-- A `calculate_bunkable` result is stable under extra fuel. -/

lemma calculate_bunkable_fuel_mono (t a : ℕ) (T : ℚ) (fuel fuel' r : ℕ)
    (hle : fuel ≤ fuel') (h : calculate_bunkable t a T fuel = some r) :
    calculate_bunkable t a T fuel' = some r := by
  unfold calculate_bunkable at h ⊢
  by_cases ht : t = 0
  · rwa [if_pos ht] at h ⊢
  · rw [if_neg ht] at h ⊢
    rcases hgo : bunkableGo a t T fuel 0 with _ | N
    · rw [hgo] at h; simp at h
    · rw [hgo] at h
      rw [bunkableGo_fuel_mono a t T fuel fuel' 0 N hle hgo]
      exact h

/-- Guard is antitone in the counter (the ratio shrinks as classes are
skipped): for `t ≠ 0`, if the guard holds at `k'` it holds at any `k ≤ k'`. -/

lemma bunkGuard_antitone (a t : ℕ) (T : ℚ) (ht : t ≠ 0) {k k' : ℕ}
    (hkk : k ≤ k') (h : bunkGuard a t T k' = true) :
    bunkGuard a t T k = true := by
  rw [bunkGuard_true_iff] at h ⊢
  refine le_trans h ?_
  have hk : (0 : ℚ) < (t : ℚ) + (k : ℚ) := by
    have : (1 : ℚ) ≤ (t : ℚ) := by exact_mod_cast Nat.one_le_iff_ne_zero.mpr ht
    have : (0 : ℚ) ≤ (k : ℚ) := by positivity
    linarith
  have hk' : (0 : ℚ) < (t : ℚ) + (k' : ℚ) := by
    have : (1 : ℚ) ≤ (t : ℚ) := by exact_mod_cast Nat.one_le_iff_ne_zero.mpr ht
    have : (0 : ℚ) ≤ (k' : ℚ) := by positivity
    linarith
  have hden : (t : ℚ) + (k : ℚ) ≤ (t : ℚ) + (k' : ℚ) := by
    have : (k : ℚ) ≤ (k' : ℚ) := by exact_mod_cast hkk
    linarith
  have hnum : (0 : ℚ) ≤ (a : ℚ) := by positivity
  have := div_le_div_of_nonneg_left hnum hk hden
  exact mul_le_mul_of_nonneg_right this (by norm_num)

/-- For a positive threshold a failing guard index exists. -/

lemma exists_bunkGuard_fail (a t : ℕ) (T : ℚ) (hT : 0 < T) :
    ∃ n, bunkGuard a t T n = false := by
  refine ⟨⌈(a : ℚ) * 100 / T⌉₊ + 1, ?_⟩
  rw [bunkGuard_false_iff]
  set n : ℕ := ⌈(a : ℚ) * 100 / T⌉₊ + 1 with hn
  have hceil : (a : ℚ) * 100 / T ≤ ⌈(a : ℚ) * 100 / T⌉₊ := Nat.le_ceil _
  have hnq : (a : ℚ) * 100 / T < (n : ℚ) := by
    have : ((⌈(a : ℚ) * 100 / T⌉₊ : ℚ)) + 1 = (n : ℚ) := by
      rw [hn]; push_cast; ring
    linarith
  have hden : (0 : ℚ) < (t : ℚ) + (n : ℚ) := by
    have h1 : (0 : ℚ) ≤ (t : ℚ) := by positivity
    have h2 : (1 : ℚ) ≤ (n : ℚ) := by
      exact_mod_cast Nat.one_le_iff_ne_zero.mpr (by omega)
    linarith
  have hlt : (a : ℚ) * 100 / T < (t : ℚ) + (n : ℚ) := by
    have : (0 : ℚ) ≤ (t : ℚ) := by positivity
    linarith
  have hmul : (a : ℚ) * 100 < T * ((t : ℚ) + (n : ℚ)) := by
    rw [div_lt_iff₀ hT] at hlt
    linarith [hlt]
  calc (a : ℚ) / ((t : ℚ) + (n : ℚ)) * 100
      = (a : ℚ) * 100 / ((t : ℚ) + (n : ℚ)) := by ring
    _ < T := by rw [div_lt_iff₀ hden]; linarith

/-- Characterization of a successful run of `calculate_bunkable` when
`total ≠ 0`: the result is `N - 1` where `N` is the least failing guard
index. -/

lemma calculate_bunkable_some_char (t a : ℕ) (T : ℚ) (fuel r : ℕ)
    (ht : t ≠ 0) (h : calculate_bunkable t a T fuel = some r) :
    ∃ N, bunkGuard a t T N = false ∧ (∀ j, j < N → bunkGuard a t T j = true) ∧
      r = N - 1 := by
  unfold calculate_bunkable at h
  rw [if_neg ht] at h
  rcases hgo : bunkableGo a t T fuel 0 with _ | N
  · rw [hgo] at h; simp at h
  · rw [hgo] at h
    obtain ⟨h1, _, h3⟩ := bunkableGo_eq_some a t T fuel 0 N hgo
    refine ⟨N, h1, fun j hj => h3 j (Nat.zero_le j) hj, ?_⟩
    simp only [Option.some.injEq] at h
    by_cases hN : 0 < N
    · rw [if_pos hN] at h; omega
    · rw [if_neg hN] at h; omega

/-- With positive threshold, enough fuel produces a result. -/

lemma calculate_bunkable_terminates (t a : ℕ) (T : ℚ) (hT : 0 < T) :
    ∃ fuel r, calculate_bunkable t a T fuel = some r := by
  by_cases ht : t = 0
  · exact ⟨0, 0, by simp [calculate_bunkable, ht]⟩
  · have hex := exists_bunkGuard_fail a t T hT
    refine ⟨Nat.find hex + 1, if 0 < Nat.find hex then Nat.find hex - 1 else 0, ?_⟩
    unfold calculate_bunkable
    rw [if_neg ht,
      bunkableGo_eq_some_of_fail a t T hex (Nat.find hex + 1) 0 (Nat.zero_le _)
        (by omega)]

/-- Guard is monotone in the threshold direction: lowering the threshold
preserves a passing check. -/

lemma bunkGuard_mono_threshold {a t : ℕ} {T T' : ℚ} (hTT : T ≤ T') {k : ℕ}
    (h : bunkGuard a t T' k = true) : bunkGuard a t T k = true := by
  rw [bunkGuard_true_iff] at h ⊢
  exact le_trans hTT h

/-- Guard is monotone in the attended count. -/

lemma bunkGuard_mono_attended {a a' t : ℕ} (ht : t ≠ 0) (ha : a ≤ a')
    {T : ℚ} {k : ℕ} (h : bunkGuard a t T k = true) :
    bunkGuard a' t T k = true := by
  rw [bunkGuard_true_iff] at h ⊢
  refine le_trans h ?_
  have hden : (0 : ℚ) < (t : ℚ) + (k : ℚ) := by
    have h1 : (1 : ℚ) ≤ (t : ℚ) := by exact_mod_cast Nat.one_le_iff_ne_zero.mpr ht
    have h2 : (0 : ℚ) ≤ (k : ℚ) := by positivity
    linarith
  have haq : (a : ℚ) ≤ (a' : ℚ) := by exact_mod_cast ha
  gcongr

/-! ### Claim theorems for the calculator -/

/-- **C1 counterexample**: the claim quantifies over *every* threshold, but at
threshold `0` (with `total = 10 > 0`, `attended = 5`) the `while` guard
`5 / (10 + k) * 100 >= 0` holds for every `k`, so the Python loop never
terminates and `calculate_bunkable(10, 5, 0)` returns nothing at all. -/

theorem calculate_bunkable_diverges_at_threshold_zero :
    bunkable_diverges 10 5 0 := by
  intro fuel
  have hall : ∀ k, bunkGuard 5 10 0 k = true := by
    intro k
    rw [bunkGuard_true_iff]
    positivity
  unfold calculate_bunkable
  rw [if_neg (by norm_num), bunkableGo_eq_none 5 10 0 hall fuel 0]

/-- **C1** (amended): for every `attended ≥ 0`, `total ≥ 0` and threshold
`T > 0`, the call terminates and returns `0` when `total = 0`; returns `0`
when `total > 0` and `attended/total*100` is already below `T`; and otherwise
returns the largest non-negative `k` with `attended/(total+k)*100 ≥ T`.
In particular `calculate_bunkable(20, 18, 75) = 4`.  (The original claim's
"every threshold" is cut down to `T > 0`: at `T ≤ 0` the loop diverges.) -/

theorem calculate_bunkable_correct :
    (∀ (total attended : ℕ) (T : ℚ), 0 < T →
      ∃ fuel r, calculate_bunkable total attended T fuel = some r ∧
        (total = 0 → r = 0) ∧
        (total ≠ 0 → (attended : ℚ) / (total : ℚ) * 100 < T → r = 0) ∧
        (total ≠ 0 → T ≤ (attended : ℚ) / (total : ℚ) * 100 →
          T ≤ (attended : ℚ) / ((total : ℚ) + (r : ℚ)) * 100 ∧
          ∀ k : ℕ, T ≤ (attended : ℚ) / ((total : ℚ) + (k : ℚ)) * 100 → k ≤ r)) ∧
    calculate_bunkable 20 18 75 10 = some 4 := by
  constructor
  · intro total attended T hT
    by_cases ht : total = 0
    · refine ⟨0, 0, by simp [calculate_bunkable, ht], fun _ => rfl,
        fun h => absurd ht h, fun h => absurd ht h⟩
    · obtain ⟨fuel, r, hcalc⟩ := calculate_bunkable_terminates total attended T hT
      obtain ⟨N, hNf, hNall, hr⟩ :=
        calculate_bunkable_some_char total attended T fuel r ht hcalc
      have hguard0 : bunkGuard attended total T 0 = true ↔
          T ≤ (attended : ℚ) / (total : ℚ) * 100 := by
        rw [bunkGuard_true_iff]
        norm_num
      refine ⟨fuel, r, hcalc, fun h => absurd h ht, ?_, ?_⟩
      · intro _ hlow
        have h0 : bunkGuard attended total T 0 = false := by
          rw [Bool.eq_false_iff]
          intro hc
          exact absurd (hguard0.mp hc) (not_le.mpr hlow)
        have hN0 : N = 0 := by
          by_contra hne
          have := hNall 0 (Nat.pos_of_ne_zero hne)
          rw [h0] at this
          exact Bool.false_ne_true this
        omega
      · intro _ hhigh
        have h0 : bunkGuard attended total T 0 = true := hguard0.mpr hhigh
        have hNpos : 0 < N := by
          by_contra hne
          have hN0 : N = 0 := by omega
          rw [hN0, h0] at hNf
          simp at hNf
        have hrN : r = N - 1 := hr
        constructor
        · have := hNall (N - 1) (by omega)
          rw [bunkGuard_true_iff] at this
          rw [hrN]
          exact this
        · intro k hk
          by_contra hgt
          have hNk : N ≤ k := by omega
          have hgk : bunkGuard attended total T k = true := by
            rw [bunkGuard_true_iff]; exact hk
          have := bunkGuard_antitone attended total T ht hNk hgk
          rw [hNf] at this
          exact Bool.false_ne_true this
  · norm_num [calculate_bunkable, bunkableGo, bunkGuard]

/-- **C1 witness**: instantiation of the amended claim at
`total = 20`, `attended = 18`, `T = 75`. -/

theorem calculate_bunkable_correct_witness :
    ∃ fuel r, calculate_bunkable 20 18 75 fuel = some r ∧
      ((20 : ℕ) = 0 → r = 0) ∧
      ((20 : ℕ) ≠ 0 → (18 : ℚ) / (20 : ℚ) * 100 < 75 → r = 0) ∧
      ((20 : ℕ) ≠ 0 → (75 : ℚ) ≤ (18 : ℚ) / (20 : ℚ) * 100 →
        (75 : ℚ) ≤ (18 : ℚ) / ((20 : ℚ) + (r : ℚ)) * 100 ∧
        ∀ k : ℕ, (75 : ℚ) ≤ (18 : ℚ) / ((20 : ℚ) + (k : ℚ)) * 100 → k ≤ r) := by
  have h := calculate_bunkable_correct.1 20 18 75 (by norm_num)
  exact_mod_cast h

/-- **C7 counterexample**: the claim asserts termination for *every*
threshold with `total > 0`; at threshold `0` (with `total = 1 > 0`,
`attended = 0`) the guard `0 / (1 + k) * 100 >= 0` always holds and the
loop never terminates. -/

theorem calculate_bunkable_diverges_for_positive_total :
    bunkable_diverges 1 0 0 := by
  intro fuel
  have hall : ∀ k, bunkGuard 0 1 0 k = true := by
    intro k
    rw [bunkGuard_true_iff]
    positivity
  unfold calculate_bunkable
  rw [if_neg (by norm_num), bunkableGo_eq_none 0 1 0 hall fuel 0]

/-- **C7** (amended): for every `attended ≥ 0`, `total > 0` and threshold
`T > 0`, the computation terminates with a result `≥ 0`; the result is
monotonically non-increasing in the threshold and non-decreasing in the
attended count.  (The original claim's "every threshold" is cut down to
`T > 0`: at `T ≤ 0` the loop diverges.) -/

theorem calculate_bunkable_props (attended total : ℕ) (T : ℚ)
    (htot : 0 < total) (hT : 0 < T) :
    (∃ fuel r, calculate_bunkable total attended T fuel = some r) ∧
    (∀ fuel r, calculate_bunkable total attended T fuel = some r → 0 ≤ r) ∧
    (∀ (T' : ℚ) fuel fuel' r r', T ≤ T' →
      calculate_bunkable total attended T fuel = some r →
      calculate_bunkable total attended T' fuel' = some r' → r' ≤ r) ∧
    (∀ (attended' : ℕ) fuel fuel' r r', attended ≤ attended' →
      calculate_bunkable total attended T fuel = some r →
      calculate_bunkable total attended' T fuel' = some r' → r ≤ r') := by
  have ht : total ≠ 0 := Nat.pos_iff_ne_zero.mp htot
  refine ⟨calculate_bunkable_terminates total attended T hT,
    fun _ _ _ => Nat.zero_le _, ?_, ?_⟩
  · intro T' fuel fuel' r r' hTT hc hc'
    obtain ⟨N, hNf, hNall, hr⟩ :=
      calculate_bunkable_some_char total attended T fuel r ht hc
    obtain ⟨N', hN'f, hN'all, hr'⟩ :=
      calculate_bunkable_some_char total attended T' fuel' r' ht hc'
    have hNN : N' ≤ N := by
      by_contra hgt
      have hlt : N < N' := by omega
      have := hN'all N hlt
      have := bunkGuard_mono_threshold hTT this
      rw [hNf] at this
      exact Bool.false_ne_true this
    omega
  · intro attended' fuel fuel' r r' ha hc hc'
    obtain ⟨N, hNf, hNall, hr⟩ :=
      calculate_bunkable_some_char total attended T fuel r ht hc
    obtain ⟨N', hN'f, hN'all, hr'⟩ :=
      calculate_bunkable_some_char total attended' T fuel' r' ht hc'
    have hNN : N ≤ N' := by
      by_contra hgt
      have hlt : N' < N := by omega
      have := hNall N' hlt
      have := bunkGuard_mono_attended ht ha this
      rw [hN'f] at this
      exact Bool.false_ne_true this
    omega

/-- **C7 witness**: instantiation at `attended = 18`, `total = 20`,
`T = 75`. -/

theorem calculate_bunkable_props_witness :
    (∃ fuel r, calculate_bunkable 20 18 75 fuel = some r) ∧
    (∀ fuel r, calculate_bunkable 20 18 75 fuel = some r → 0 ≤ r) ∧
    (∀ (T' : ℚ) fuel fuel' r r', 75 ≤ T' →
      calculate_bunkable 20 18 75 fuel = some r →
      calculate_bunkable 20 18 T' fuel' = some r' → r' ≤ r) ∧
    (∀ (attended' : ℕ) fuel fuel' r r', 18 ≤ attended' →
      calculate_bunkable 20 18 75 fuel = some r →
      calculate_bunkable 20 attended' 75 fuel' = some r' → r ≤ r') :=
  calculate_bunkable_props 18 20 75 (by norm_num) (by norm_num)

/-- **C2**: `extract_csrf_token` tries the four tiers in order, each later
tier only when every earlier one yields nothing, and fails with
`AuthenticationError` when no tier matches.  In particular a tier-1 hidden
input token always wins over a tier-3 inline-script token. -/

theorem extract_csrf_token_tier_order (page : Web.HtmlPage) :
    (∀ v, Web.hiddenInputToken page = some v →
      Web.extract_csrf_token page = .ok v) ∧
    (Web.hiddenInputToken page = none → ∀ v, Web.metaToken page = some v →
      Web.extract_csrf_token page = .ok v) ∧
    (Web.hiddenInputToken page = none → Web.metaToken page = none →
      ∀ v, page.jsCsrfMatch = some v → Web.extract_csrf_token page = .ok v) ∧
    (Web.hiddenInputToken page = none → Web.metaToken page = none →
      page.jsCsrfMatch = none → ∀ v, page.uuidMatch = some v →
      Web.extract_csrf_token page = .ok v) ∧
    (Web.hiddenInputToken page = none → Web.metaToken page = none →
      page.jsCsrfMatch = none → page.uuidMatch = none →
      Web.extract_csrf_token page = .error "CSRF token not found in response") := by
  refine ⟨?_, ?_, ?_, ?_, ?_⟩
  · intro v h1
    simp [Web.extract_csrf_token, h1]
  · intro h1 v h2
    simp [Web.extract_csrf_token, h1, h2]
  · intro h1 h2 v h3
    simp [Web.extract_csrf_token, h1, h2, h3]
  · intro h1 h2 h3 v h4
    simp [Web.extract_csrf_token, h1, h2, h3, h4]
  · intro h1 h2 h3 h4
    simp [Web.extract_csrf_token, h1, h2, h3, h4]

/-- **C2 witness**: on a body with hidden-input token `"A"` and
inline-script token `"B"`, extraction returns `"A"`. -/

theorem extract_csrf_token_tier_order_witness :
    Web.extract_csrf_token csrfBodyAB = .ok "A" :=
  (extract_csrf_token_tier_order csrfBodyAB).1 "A" rfl

lemma web_filter_valid_eq (rd : List String) :
    (!rd.isEmpty && Web.is_valid_attendance_record rd) = Web.spec_row_valid rd := by
  match rd with
  | [] => rfl
  | [c0] => rfl
  | c0 :: c1 :: rest =>
      have hlen : ¬ (c0 :: c1 :: rest).length < 2 := by simp
      have hlen' : 2 ≤ (c0 :: c1 :: rest).length := by simp
      simp only [Web.is_valid_attendance_record, Web.spec_row_valid, if_neg hlen,
        List.isEmpty_cons, Bool.not_false, Bool.true_and, List.headD_cons,
        decide_eq_true hlen']
      by_cases h2 : pyStrip c0 = ""
      · simp [h2]
      · have h0 : ¬ c0 = "" := by
          intro hc
          rw [hc] at h2
          exact h2 (by decide)
        simp [h0, h2]

/-- **C4**: `_parse_attendance_table` (main.py) returns `None` when the
table or its body is absent and when zero valid rows remain; a row is kept
iff it has at least 2 cells and a first cell non-empty after trimming; a
row whose ratio cell is exactly `"NA"` is retained, never dropped. -/

theorem parse_attendance_table_validity :
    (∀ page : ReportHtml, page.table = none →
      Web.parse_attendance_table page = none) ∧
    (∀ page : ReportHtml, page.table = some none →
      Web.parse_attendance_table page = none) ∧
    (∀ trs : List (List String),
      Web.parse_attendance_table ⟨some (some trs)⟩ =
        (if ((trs.map Web.extract_row_data).filter Web.spec_row_valid).isEmpty
         then none
         else some ((trs.map Web.extract_row_data).filter Web.spec_row_valid))) ∧
    Web.parse_attendance_table ⟨some (some [["CS101", "Data Structures", "NA"]])⟩ =
      some [["CS101", "Data Structures", "NA"]] := by
  have hfilter : ∀ l : List (List String),
      l.filter (fun rd => !rd.isEmpty && Web.is_valid_attendance_record rd) =
        l.filter Web.spec_row_valid := by
    intro l
    exact List.filter_congr (fun a _ => web_filter_valid_eq a)
  refine ⟨?_, ?_, ?_, ?_⟩
  · intro page h
    unfold Web.parse_attendance_table
    rw [h]
  · intro page h
    unfold Web.parse_attendance_table
    rw [h]
  · intro trs
    have hstep : Web.parse_attendance_table ⟨some (some trs)⟩ =
        (if ((trs.map Web.extract_row_data).filter
              (fun rd => !rd.isEmpty && Web.is_valid_attendance_record rd)).isEmpty
         then none
         else some ((trs.map Web.extract_row_data).filter
              (fun rd => !rd.isEmpty && Web.is_valid_attendance_record rd))) := rfl
    rw [hstep, hfilter]
  · decide

/-- **C4 witness**: the absence cases at concrete pages. -/

theorem parse_attendance_table_validity_witness :
    Web.parse_attendance_table ⟨none⟩ = none ∧
    Web.parse_attendance_table ⟨some none⟩ = none ∧
    Web.parse_attendance_table ⟨some (some [["", "Course", "18/20"]])⟩ =
      (if (([["", "Course", "18/20"]].map Web.extract_row_data).filter
            Web.spec_row_valid).isEmpty
       then none
       else some (([["", "Course", "18/20"]].map Web.extract_row_data).filter
            Web.spec_row_valid)) :=
  ⟨parse_attendance_table_validity.1 ⟨none⟩ rfl,
   parse_attendance_table_validity.2.1 ⟨some none⟩ rfl,
   parse_attendance_table_validity.2.2.1 [["", "Course", "18/20"]]⟩

/-- **C3**: candidates are tried strictly in order; every candidate whose
fetch yields no rows (non-200, network error, or empty parse) is passed
over; the first candidate with a truthy result is returned immediately and
no request is issued for any later candidate; if every candidate is
exhausted the loop returns `None`. -/

theorem scrape_first_success (responses : String → Engine.FetchResp) :
    (∀ ids : List String,
      (∀ b ∈ ids,
        Engine.pyTruthyList (Engine.fetch_attendance_for_batch responses b) = false) →
      Engine.scrape_attendance_data responses ids = none ∧
      Engine.requests_issued responses ids = ids) ∧
    (∀ (pre : List String) (b : String) (post : List String),
      (∀ c ∈ pre,
        Engine.pyTruthyList (Engine.fetch_attendance_for_batch responses c) = false) →
      Engine.pyTruthyList (Engine.fetch_attendance_for_batch responses b) = true →
      Engine.scrape_attendance_data responses (pre ++ b :: post) =
        Engine.fetch_attendance_for_batch responses b ∧
      Engine.requests_issued responses (pre ++ b :: post) = pre ++ [b]) := by
  constructor
  · intro ids
    induction ids with
    | nil => intro _; exact ⟨rfl, rfl⟩
    | cons x rest ih =>
        intro hall
        have hx := hall x (List.mem_cons_self x rest)
        have hrest := ih (fun b hb => hall b (List.mem_cons_of_mem x hb))
        constructor
        · simp only [Engine.scrape_attendance_data, hx]
          simpa using hrest.1
        · simp only [Engine.requests_issued, hx]
          simpa using hrest.2
  · intro pre
    induction pre with
    | nil =>
        intro b post _ hb
        constructor
        · simp only [List.nil_append, Engine.scrape_attendance_data, hb, if_true]
        · simp only [List.nil_append, Engine.requests_issued, hb, if_true,
            List.singleton_append]
    | cons x rest ih =>
        intro b post hall hb
        have hx := hall x (List.mem_cons_self x rest)
        have hrest := ih b post (fun c hc => hall c (List.mem_cons_of_mem x hc)) hb
        constructor
        · simp only [List.cons_append, Engine.scrape_attendance_data, hx]
          simpa using hrest.1
        · simp only [List.cons_append, Engine.requests_issued, hx]
          simpa using hrest.2

/-- **C3 witness**: with candidates `[101, 102]` where 101 yields no table
and 102 yields 3 rows, the result is exactly 102's rows and requests stop
at 102. -/

theorem scrape_first_success_witness :
    Engine.scrape_attendance_data sampleResponses (["101"] ++ "102" :: []) =
      Engine.fetch_attendance_for_batch sampleResponses "102" ∧
    Engine.requests_issued sampleResponses (["101"] ++ "102" :: []) =
      ["101"] ++ ["102"] :=
  (scrape_first_success sampleResponses).2 ["101"] "102" []
    (by decide) (by decide)

lemma parse_options_values_go (opts : List Web.SemOption) :
    ∀ acc : List ℕ × List (ℕ × String),
      (opts.foldl
        (fun acc opt =>
          match Web.optionBatchId opt with
          | none => acc
          | some id_int => (acc.1 ++ [id_int], Web.dictInsert acc.2 id_int opt.text))
        acc).1 = acc.1 ++ opts.filterMap Web.optionBatchId := by
  induction opts with
  | nil => intro acc; simp
  | cons x rest ih =>
      intro acc
      cases hx : Web.optionBatchId x with
      | none => simp [List.foldl_cons, hx, ih]
      | some i => simp [List.foldl_cons, hx, ih]

lemma fetch_semester_nonempty (resp : Web.SemResponse) (ids : List ℕ)
    (texts : Option (List (ℕ × String)))
    (h : Web.fetch_semester_batch_ids resp = (some ids, texts)) : ids ≠ [] := by
  unfold Web.fetch_semester_batch_ids at h
  by_cases he : (Web.semParsed resp).1.isEmpty
  · rw [if_pos he] at h
    have := congrArg Prod.fst h
    simp at this
  · rw [if_neg he] at h
    have h1 : (Web.semParsed resp).1 = ids := by
      have := congrArg Prod.fst h
      simpa using this
    rw [← h1]
    simpa [List.isEmpty_iff] using he

/-- **C6**: when the configured candidate list is non-empty, the candidates
tried are exactly the configured ones in order (stringified for the POST
form, no additions, removals or reordering) and discovery is not
consulted; when the configured list is empty, discovery runs and its ids
are tried in option order, recorded as auto-discovered together with the
label texts; the values parsed from a discovery response are exactly the
options' numeric ids in option order. -/

theorem resolve_batch_ids_spec :
    (∀ (configured : List ℕ) (resp : Web.SemResponse), configured ≠ [] →
      Web.resolve_batch_ids configured resp =
        some { tried := configured.map (fun bid => toString bid)
               consulted_discovery := false
               auto_discovered := none
               sem_texts := none }) ∧
    (∀ (resp : Web.SemResponse) (ids : List ℕ)
        (texts : Option (List (ℕ × String))),
      Web.fetch_semester_batch_ids resp = (some ids, texts) →
      ∃ out, Web.resolve_batch_ids [] resp = some out ∧
        out.consulted_discovery = true ∧
        out.tried = ids.map (fun bid => toString bid) ∧
        out.auto_discovered = some ids ∧
        out.sem_texts = texts) ∧
    (∀ opts : List Web.SemOption,
      (Web.parse_options opts).1 = opts.filterMap Web.optionBatchId) := by
  refine ⟨?_, ?_, ?_⟩
  · intro configured resp hne
    have : (!configured.isEmpty) = true := by
      simp [List.isEmpty_iff, hne]
    unfold Web.resolve_batch_ids
    rw [if_pos this]
    rfl
  · intro resp ids texts h
    have hne : ids ≠ [] := fetch_semester_nonempty resp ids texts h
    have hempty : (!([] : List ℕ).isEmpty) = false := rfl
    unfold Web.resolve_batch_ids
    rw [if_neg (by simp), h]
    refine ⟨_, rfl, rfl, ?_, rfl, rfl⟩
    by_cases hlen : 1 < ids.length
    · simp [hlen, Web.normalize_batch_ids]
    · match ids, hne with
      | [x], _ =>
          simp [Web.normalize_batch_ids]
      | y :: z :: rest, _ =>
          exfalso
          simp at hlen
  · intro opts
    exact parse_options_values_go opts ([], [])

/-- **C6 witness**: a configured list `[101, 102]` is used unchanged and in
order, with discovery untouched. -/

theorem resolve_batch_ids_spec_witness :
    Web.resolve_batch_ids [101, 102] ⟨[⟨some "999", "Sem-9"⟩], none⟩ =
      some { tried := [101, 102].map (fun bid => toString bid)
             consulted_discovery := false
             auto_discovered := none
             sem_texts := none } :=
  resolve_batch_ids_spec.1 [101, 102] ⟨[⟨some "999", "Sem-9"⟩], none⟩ (by decide)

lemma cleanup_not_mem_of_old (now W : ℚ) (store : List (String × Api.StoredRequest))
    (id : String) (e : Api.StoredRequest)
    (hold : W < now - (e.timestamp.getD 0)) :
    (id, e) ∉ Api.cleanup_old_requests now W store := by
  intro hmem
  unfold Api.cleanup_old_requests at hmem
  rw [List.mem_filter] at hmem
  obtain ⟨hst, hkeep⟩ := hmem
  have hexp : id ∈ (store.filter
      (fun p => decide (W < now - (p.2.timestamp.getD 0)))).map (fun p => p.1) :=
    List.mem_map.mpr ⟨(id, e), List.mem_filter.mpr ⟨hst, by simpa using hold⟩, rfl⟩
  rw [Bool.not_eq_true'] at hkeep
  have hnot : id ∉ (store.filter
      (fun p => decide (W < now - (p.2.timestamp.getD 0)))).map (fun p => p.1) := by
    simpa using hkeep
  exact hnot hexp

lemma cleanup_subset (now W : ℚ) (store : List (String × Api.StoredRequest))
    (p : String × Api.StoredRequest)
    (hmem : p ∈ Api.cleanup_old_requests now W store) : p ∈ store := by
  unfold Api.cleanup_old_requests at hmem
  exact (List.mem_filter.mp hmem).1

/-- **C9 counterexample**: an entry whose age is exactly the expiry window
survives the sweep — the code deletes only on the strict comparison
`current_time - timestamp > W`.  Here the entry was created at time `0`,
the window is `5`, and the sweep runs at time `5 = 0 + W`, yet the entry
is still in the store afterwards. -/

theorem cleanup_keeps_boundary_entry :
    Api.cleanup_old_requests 5 5 [("r1", ⟨some 0, "complete"⟩)] =
      [("r1", ⟨some 0, "complete"⟩)] := by
  unfold Api.cleanup_old_requests
  norm_num

/-- **C9** (amended): after `_cleanup_old_requests` runs at time `t` with
window `W`, no entry whose age `t - timestamp` strictly exceeds `W`
remains, regardless of its status field, and every surviving entry comes
from the store with age at most `W`; an entry created at `t0` is therefore
absent at any sweep at time strictly greater than `t0 + W` (at exactly
`t0 + W` it survives, which refutes the original non-strict bound). -/

theorem cleanup_expiry (now W : ℚ) (store : List (String × Api.StoredRequest)) :
    (∀ (id : String) (e : Api.StoredRequest),
      W < now - (e.timestamp.getD 0) →
      (id, e) ∉ Api.cleanup_old_requests now W store) ∧
    (∀ (id : String) (e : Api.StoredRequest),
      (id, e) ∈ Api.cleanup_old_requests now W store →
      (id, e) ∈ store ∧ now - (e.timestamp.getD 0) ≤ W) := by
  constructor
  · intro id e hold
    exact cleanup_not_mem_of_old now W store id e hold
  · intro id e hmem
    refine ⟨cleanup_subset now W store (id, e) hmem, ?_⟩
    by_contra hgt
    exact cleanup_not_mem_of_old now W store id e (not_le.mp hgt) hmem

/-- **C9 witness**: at time `11` with window `5`, an entry stamped `0`
(age `11 > 5`) is gone from a concrete two-entry store, and a surviving
entry is store-resident and at most `5` old. -/

theorem cleanup_expiry_witness :
    ("old", (⟨some 0, "complete"⟩ : Api.StoredRequest)) ∉
      Api.cleanup_old_requests 11 5
        [("old", ⟨some 0, "complete"⟩), ("new", ⟨some 10, "processing"⟩)] :=
  (cleanup_expiry 11 5
      [("old", ⟨some 0, "complete"⟩), ("new", ⟨some 10, "processing"⟩)]).1
    "old" ⟨some 0, "complete"⟩ (by norm_num)

/-- **C10**: an entry without a `"timestamp"` key is treated as having
timestamp `0` by `request_data.get("timestamp", 0)`, so any sweep at a
wall-clock time strictly greater than the window deletes it, no matter
how recently it was created and whatever its status. -/

theorem cleanup_removes_untimestamped (now W : ℚ)
    (store : List (String × Api.StoredRequest)) (id : String)
    (e : Api.StoredRequest) (hts : e.timestamp = none) (hnow : W < now) :
    (id, e) ∉ Api.cleanup_old_requests now W store := by
  apply cleanup_not_mem_of_old
  rw [hts]
  simpa using hnow

/-- **C10 witness**: at time `6` with window `5`, a timestampless entry is
deleted from a concrete store even though it is brand new. -/

theorem cleanup_removes_untimestamped_witness :
    ("fresh", (⟨none, "processing"⟩ : Api.StoredRequest)) ∉
      Api.cleanup_old_requests 6 5 [("fresh", ⟨none, "processing"⟩)] :=
  cleanup_removes_untimestamped 6 5 [("fresh", ⟨none, "processing"⟩)]
    "fresh" ⟨none, "processing"⟩ rfl (by norm_num)

/-- **C5 counterexample**: in `_format_attendance_data`
(backend/api/main.py) a row whose ratio cell is `"NA"` is skipped outright
(`"NA".split("/")` has one part, so the loop `continue`s) — no record with
null fields is produced; and a parsable ratio `"0/0"` produces a record
whose percentage is `0`, not null. -/

theorem format_attendance_data_na_skipped_and_zero :
    Api.format_attendance_data [["CS101", "Data Structures", "NA"]] [] 75 = [] ∧
    Api.format_attendance_data [["CS101", "Data Structures", "0/0"]] [] 75 =
      [{ subject := "CS101", attended := 0, total := 0, percentage := 0,
         bunkable := some 0 }] := by
  constructor
  · have hsplit : Api.pySplit '/' "NA" = ["NA"] := by decide
    simp [Api.format_attendance_data, Api.format_one, hsplit]
  · have hsplit : Api.pySplit '/' "0/0" = ["0", "0"] := by decide
    have hint0 : Api.pyInt "0" = some 0 := by decide
    simp [Api.format_attendance_data, Api.format_one, hsplit, hint0,
      calculate_bunkable]

/-- **C5** (amended): formatting splits the ratio cell on `/`; `"18/20"`
yields attended = 18, total = 20, percentage = 90.00; a malformed or
`"NA"` ratio (too few cells, not exactly two parts, or parts `int()`
rejects) causes the row to be skipped with a warning — no record is
produced and no exception escapes; and every produced record's percentage
is `round(attended/total*100, 2)` when total > 0 and `0` (not null) when
total ≤ 0. -/

theorem format_attendance_data_spec :
    (Api.format_attendance_data [["CS101", "Data Structures", "18/20"]] [] 75 =
      [{ subject := "CS101", attended := 18, total := 20, percentage := 90,
         bunkable := some 4 }]) ∧
    (∀ (item : List String) (mapping : List (String × String)) (T : ℚ),
      ((Api.pySplit '/' (item.getD 2 "")).length ≠ 2 ∨
        Api.pyInt ((Api.pySplit '/' (item.getD 2 "")).getD 0 "") = none ∨
        Api.pyInt ((Api.pySplit '/' (item.getD 2 "")).getD 1 "") = none) →
      Api.format_one mapping T item = none) ∧
    (∀ (rows : List (List String)) (mapping : List (String × String)) (T : ℚ)
        (rec : Api.ApiAttendanceRecord),
      rec ∈ Api.format_attendance_data rows mapping T →
      (0 < rec.total →
        rec.percentage = Api.pyRound2 ((rec.attended : ℚ) / (rec.total : ℚ) * 100)) ∧
      (rec.total ≤ 0 → rec.percentage = 0)) := by
  refine ⟨?_, ?_, ?_⟩
  · have hsplit : Api.pySplit '/' "18/20" = ["18", "20"] := by decide
    have hint18 : Api.pyInt "18" = some 18 := by decide
    have hint20 : Api.pyInt "20" = some 20 := by decide
    have hbunk10 : calculate_bunkable 20 18 75 10 = some 4 := by
      norm_num [calculate_bunkable, bunkableGo, bunkGuard]
    have hbunk : calculate_bunkable 20 18 75 1802 = some 4 :=
      calculate_bunkable_fuel_mono 20 18 75 10 1802 4 (by norm_num) hbunk10
    have hpct : Api.pyRound2 ((18 : ℚ) / (20 : ℚ) * 100) = 90 := by
      unfold Api.pyRound2 Api.pyRoundHalfEven
      norm_num
    simp [Api.format_attendance_data, Api.format_one, hsplit, hint18, hint20,
      hpct, hbunk]
  · intro item mapping T hbad
    unfold Api.format_one
    by_cases h1 : item.length < 3
    · rw [if_pos h1]
    · rw [if_neg h1]
      rcases hbad with hlen | h0 | hsnd
      · rw [if_pos hlen]
      · by_cases hlen : (Api.pySplit '/' (item.getD 2 "")).length ≠ 2
        · rw [if_pos hlen]
        · rw [if_neg hlen, h0]
      · by_cases hlen : (Api.pySplit '/' (item.getD 2 "")).length ≠ 2
        · rw [if_pos hlen]
        · rw [if_neg hlen, hsnd]
          cases Api.pyInt ((Api.pySplit '/' (item.getD 2 "")).getD 0 "") <;> rfl
  · intro rows mapping T rec hmem
    unfold Api.format_attendance_data at hmem
    rw [List.mem_filterMap] at hmem
    obtain ⟨item, _, hsome⟩ := hmem
    unfold Api.format_one at hsome
    by_cases h1 : item.length < 3
    · rw [if_pos h1] at hsome; exact absurd hsome (by simp)
    · rw [if_neg h1] at hsome
      by_cases h2 : (Api.pySplit '/' (item.getD 2 "")).length ≠ 2
      · rw [if_pos h2] at hsome; exact absurd hsome (by simp)
      · rw [if_neg h2] at hsome
        rcases hp0 : Api.pyInt ((Api.pySplit '/' (item.getD 2 "")).getD 0 "")
          with _ | attended
        · rw [hp0] at hsome; exact absurd hsome (by simp)
        · rcases hp1 : Api.pyInt ((Api.pySplit '/' (item.getD 2 "")).getD 1 "")
            with _ | total
          · rw [hp0, hp1] at hsome; exact absurd hsome (by simp)
          · rw [hp0, hp1] at hsome
            rw [Option.some_inj] at hsome
            subst hsome
            constructor
            · intro hpos
              simp only at hpos ⊢
              rw [if_pos hpos]
            · intro hle
              have : ¬ 0 < total := not_lt.mpr hle
              simp only at hle ⊢
              rw [if_neg this]

/-- **C5 witness**: the skip rule applied at the `"NA"` row. -/

theorem format_attendance_data_spec_witness :
    Api.format_one [] 75 ["CS101", "Data Structures", "NA"] = none :=
  format_attendance_data_spec.2.1 ["CS101", "Data Structures", "NA"] [] 75
    (Or.inl (by decide))

/-- **C8**: a record is appended to a handler's `logs` iff the ambient
request id of the task that emitted it equals the handler's request id
(for genuine request ids: non-empty and not the `"-"` placeholder, which
`uuid4`-generated ids always are); any scheduled WebSocket broadcast obeys
the same condition; consequently a record emitted inside one task's
logging context never lands in the logs of a handler belonging to a
different request id. -/

theorem request_log_isolation :
    (∀ (h : Stream.RequestLogHandler) (stored connected : Bool)
        (ambient : Option String) (msg r : String),
      h.request_id = some r → r ≠ "" → r ≠ "-" →
      ((Stream.handle h stored connected ambient msg).1.logs =
          (if ambient = some r then h.logs ++ [msg] else h.logs)) ∧
      ((Stream.handle h stored connected ambient msg).2 ≠ none →
          ambient = some r)) ∧
    (∀ (h2 : Stream.RequestLogHandler) (stored connected : Bool)
        (r1 r2 msg : String),
      h2.request_id = some r2 → r1 ≠ r2 → r1 ≠ "" →
      (Stream.handle h2 stored connected (some r1) msg).1 = h2 ∧
      (Stream.handle h2 stored connected (some r1) msg).2 = none) := by
  have tag_eq : ∀ (ambient : Option String) (r : String), r ≠ "" → r ≠ "-" →
      ((Stream.contextFilterTag ambient == r) = true ↔ ambient = some r) := by
    intro ambient r hne hnd
    cases ambient with
    | none =>
        simp only [Stream.contextFilterTag, beq_iff_eq]
        constructor
        · intro h; exact absurd h.symm hnd
        · intro h; simp at h
    | some s =>
        simp only [Stream.contextFilterTag]
        by_cases hs : s = ""
        · subst hs
          simp only [if_pos rfl, beq_iff_eq]
          constructor
          · intro h; exact absurd h.symm hnd
          · intro h
            have : r = "" := by
              simpa using congrArg (fun o => o.getD "") h.symm
            exact absurd this hne
        · simp only [if_neg hs, beq_iff_eq]
          constructor
          · intro h; exact congrArg some h.symm ▸ rfl
          · intro h
            have : some s = some r := h ▸ rfl
            simp at this
            exact this.symm ▸ rfl
  constructor
  · intro h stored connected ambient msg r hid hne hnd
    by_cases hamb : ambient = some r
    · subst hamb
      have ht : Stream.contextFilterTag (some r) = r :=
        beq_iff_eq.mp ((tag_eq (some r) r hne hnd).mpr rfl)
      simp [Stream.handle, hid, Stream.requestIDFilter, ht]
    · have ht : ¬ Stream.contextFilterTag ambient = r := by
        intro hc
        exact hamb ((tag_eq ambient r hne hnd).mp (beq_iff_eq.mpr hc))
      simp [Stream.handle, hid, Stream.requestIDFilter, ht, hamb]
  · intro h2 stored connected r1 r2 msg hid hne12 hne1
    have ht : ¬ Stream.contextFilterTag (some r1) = r2 := by
      simp only [Stream.contextFilterTag, if_neg hne1]
      exact hne12
    simp [Stream.handle, hid, Stream.requestIDFilter, ht]

/-- **C8 witness**: two handlers for request ids `"req1"` and `"req2"`;
a line emitted in `"req1"`'s context is appended to the first handler's
logs and leaves the second handler untouched. -/

theorem request_log_isolation_witness :
    ((Stream.handle ⟨some "req1", []⟩ true true (some "req1") "line").1.logs =
      (if (some "req1" : Option String) = some "req1" then
        ([] : List String) ++ ["line"] else [])) ∧
    ((Stream.handle ⟨some "req2", ["old"]⟩ true true (some "req1") "line").1 =
      (⟨some "req2", ["old"]⟩ : Stream.RequestLogHandler)) :=
  ⟨((request_log_isolation.1 ⟨some "req1", []⟩ true true (some "req1") "line"
      "req1" rfl (by decide) (by decide)).1),
   ((request_log_isolation.2 ⟨some "req2", ["old"]⟩ true true "req1" "req2"
      "line" rfl (by decide) (by decide)).1)⟩

end Attend
